import Mathlib

/-!
Verification development for the experiment process lifecycle manager of the
talking-to-machines-ui repository (src/app.py, src/run_experiment.py).

The Python source is shallowly embedded as executable Lean functions:

* `stop_experiment` models app.py's `stop_experiment` (lines 196-300): the
  status guard, the three process-lookup fallbacks (recorded pid plus
  recursive children; processes whose command line contains the engine name
  `talkingtomachines` together with the run's template path; processes whose
  command line merely contains the engine name), the termination signals of
  the found branch, and the fact that both terminal branches then call
  `update_experiment_state` (lines 260 and 292) while still holding the
  non-reentrant `_experiments_lock` acquired at line 200:
  `update_experiment_state` re-acquires that lock at line 182, so those
  branches deadlock — the call never returns and never writes the store,
  and the lock stays held forever (`StopCall.blocked`).  The OS process
  table is a value of type `List OsProc`; a process is live iff it appears
  in the table, and signalling a live process succeeds.
* `load_experiments_state` / `save_experiments_state` /
  `update_experiment_state` model the persisted state store (lines 160-184).
  The state file is `FileState`: `missing`, `corrupt` (present but not
  parseable, the `except` branch of the load), or `good j` holding the JSON
  value the file parses to.  JSON text printing/parsing is abstracted to the
  identity on `JVal` values; `recOfJson` expresses how the rest of the app
  reads fields back out of a loaded record dictionary.  A write attempt has
  three outcomes (`WriteOutcome`): success, a failed open (file untouched),
  or a failure after the truncating `open(file, 'w')` (file left
  truncated/corrupt).
* `relocate_results` models the result-relocation block of
  `run_experiment_async` (lines 441-447 and 563-588): the pre-run snapshot of
  root file names, which tests `f.suffix in ['.csv', '.json']` and is
  modelled with `pySuffix` (so a file named exactly `.csv` or `.json`, whose
  suffix is empty, escapes the snapshot); the two move passes (`*.csv` then
  `*.json`) over direct children of the results root, whose glob match is an
  ends-with test (and does match a bare `.csv`); and `shutil.move`'s
  overwrite of a same-named destination file.
* `spawn_engine` models the engine spawn (app.py lines 450-461 and
  run_experiment.py lines 164-176): argv, the single mode line written to the
  child's standard input, and the close of that stream.
* `sysStep` / `runSys` give a small-step interleaving semantics for one run:
  the worker thread of `run_experiment_async` (poll loop, store read,
  running-status rewrite, finalization including the unbound `exp_state`
  path at line 590) interleaved with stop requests against the shared store
  and with the engine process exiting.  A stop request that reaches a
  terminal branch deadlocks holding the store lock (`Sys.locked`); from then
  on every store access of the worker and every further stop request blocks
  with no effect.  `ExpRecord` carries the store fields
  the claims inspect; a key absent from a written dictionary is modelled by
  its neutral value (`none`, or `""` for the template), matching the
  wholesale replacement done by `update_experiment_state` and the
  `dict.get` defaults used by readers.  Fields `process_info`,
  `result_files_count`, `files_moved`, `stdout` and `stderr` are elided:
  no claim mentions them.  Numeric timestamps are modelled with `Nat`/`Int`.
-/

/-- Status strings stored in an experiment record. -/
inductive ExpStatus where
  | starting
  | running
  | stopped
  | completed
  | failed
  | error
deriving DecidableEq, Repr

/-- Terminal statuses: stopped, completed, failed, error. -/
def ExpStatus.isTerminal : ExpStatus → Bool
  | .stopped => true
  | .completed => true
  | .failed => true
  | .error => true
  | _ => false

/-- The persisted record for one run (the fields claims inspect). -/
structure ExpRecord where
  status : ExpStatus
  startTime : Nat
  elapsed : Int
  processPid : Option Nat
  template : String
  resultFolder : Option String
  error : Option String
  returnCode : Option Int
deriving DecidableEq, Repr

/-- Boolean list-of-chars prefix test (mirrors the character-by-character
comparison underlying Python string containment). -/
def charsPre : List Char → List Char → Bool
  | [], _ => true
  | _ :: _, [] => false
  | a :: as, b :: bs => a == b && charsPre as bs

/-- Boolean substring test on char lists: does `needle` occur inside `hay`. -/
def charsSub : List Char → List Char → Bool
  | n, [] => charsPre n []
  | n, h :: t => charsPre n (h :: t) || charsSub n t

/-- Python `needle in hay` on strings. -/
def substrOf (needle hay : String) : Bool :=
  charsSub needle.data hay.data

/-- Python `s.endswith(pat)`; also models `Path.suffix == pat` and the
non-recursive `glob` pattern match on an extension. -/
def strEnds (pat s : String) : Bool :=
  charsPre pat.data.reverse s.data.reverse

/-- Python `' '.join(parts)`. -/
def joinSpace : List String → String
  | [] => ""
  | [s] => s
  | s :: rest => s ++ " " ++ joinSpace rest

/-- One entry of the OS process table as surfaced by psutil:
pid, parent pid, and the command line. -/
structure OsProc where
  pid : Nat
  ppid : Nat
  cmdline : List String
deriving DecidableEq, Repr

/-- Direct children of pid `p` in the table (psutil `children()`). -/
def procChildren (table : List OsProc) (p : Nat) : List OsProc :=
  table.filter (fun q => q.ppid == p)

/-- Transitive children of pid `p` (psutil `children(recursive=True)`);
fuel bounds the recursion depth by the table size. -/
def procDescend : Nat → List OsProc → Nat → List OsProc
  | 0, _, _ => []
  | fuel + 1, table, p =>
    let cs := procChildren table p
    cs ++ cs.flatMap (fun c => procDescend fuel table c.pid)

/-- First fallback of `stop_experiment` (app.py 212-226): the recorded pid,
if truthy and alive, together with its recursive children. -/
def stop_kill1 (table : List OsProc) (r : ExpRecord) : List OsProc :=
  match r.processPid with
  | none => []
  | some p =>
    if p = 0 then []
    else
      match table.find? (fun q => q.pid == p) with
      | none => []
      | some mp => mp :: procDescend table.length table mp.pid

/-- Second fallback (app.py 228-243): processes whose command line contains
the engine name and, when the recorded template path is truthy, the template
path as a substring of some argument. -/
def stop_kill2 (table : List OsProc) (r : ExpRecord) : List OsProc :=
  if (stop_kill1 table r).isEmpty then
    table.filter (fun q =>
      !q.cmdline.isEmpty
      && substrOf "talkingtomachines" (joinSpace q.cmdline)
      && !(r.template == "")
      && q.cmdline.any (fun a => substrOf r.template a))
  else stop_kill1 table r

/-- Third fallback (app.py 245-256): any process whose command line contains
the engine name. -/
def stop_kill3 (table : List OsProc) (r : ExpRecord) : List OsProc :=
  if (stop_kill2 table r).isEmpty then
    table.filter (fun q =>
      !q.cmdline.isEmpty
      && substrOf "talkingtomachines" (joinSpace q.cmdline))
  else stop_kill2 table r

/-- Outcome of a call to `stop_experiment`.  `ret b st` means the call
returns `b` with the stored record `st` afterwards.  `blocked killed st`
means the call never returns: it reached one of the two terminal updates
(app.py 260 or 292) while still holding the non-reentrant
`_experiments_lock` acquired at line 200, and `update_experiment_state`
re-acquires that same lock at line 182, so the call deadlocks there,
keeping the lock held forever; `killed` lists the processes it terminated
(lines 272-289) before blocking, and `st` is the stored record, which is
never written. -/
inductive StopCall where
  | ret (b : Bool) (st : Option ExpRecord)
  | blocked (killed : List OsProc) (st : Option ExpRecord)
deriving DecidableEq, Repr

/-- app.py `stop_experiment` (lines 196-300) acting on the stored record of
the given experiment id.  The two early returns (no record, status not
running) complete normally without touching the store.  Both terminal
branches call `update_experiment_state` while already holding the
process-wide lock and therefore deadlock before writing: the found branch
first terminates the collected processes (every process in `table` is
live, so the signals succeed), the not-found branch kills nothing. -/
def stop_experiment (table : List OsProc) (st : Option ExpRecord) : StopCall :=
  match st with
  | none => .ret false none
  | some r =>
    if r.status ≠ ExpStatus.running then .ret false (some r)
    else if (stop_kill3 table r).isEmpty then .blocked [] (some r)
    else .blocked (stop_kill3 table r) (some r)

/-- JSON values as read and written by the state file (the fragment the
state records use: null, integers, strings, objects). -/
inductive JVal where
  | jnull
  | jnum (n : Int)
  | jstr (s : String)
  | jobj (o : List (String × JVal))

/-- Status enum rendered to its stored string. -/
def statusStr : ExpStatus → String
  | .starting => "starting"
  | .running => "running"
  | .stopped => "stopped"
  | .completed => "completed"
  | .failed => "failed"
  | .error => "error"

/-- Status string read back from a loaded record. -/
def statusOfStr : String → Option ExpStatus
  | "starting" => some .starting
  | "running" => some .running
  | "stopped" => some .stopped
  | "completed" => some .completed
  | "failed" => some .failed
  | "error" => some .error
  | _ => none

/-- Optional natural rendered to JSON (`None` or a number). -/
def jOptNat : Option Nat → JVal
  | none => .jnull
  | some n => .jnum (Int.ofNat n)

/-- Optional natural read back from JSON. -/
def jOptNatOf : JVal → Option (Option Nat)
  | .jnull => some none
  | .jnum (Int.ofNat n) => some (some n)
  | _ => none

/-- Optional integer rendered to JSON. -/
def jOptInt : Option Int → JVal
  | none => .jnull
  | some n => .jnum n

/-- Optional integer read back from JSON. -/
def jOptIntOf : JVal → Option (Option Int)
  | .jnull => some none
  | .jnum n => some (some n)
  | _ => none

/-- Optional string rendered to JSON. -/
def jOptStr : Option String → JVal
  | none => .jnull
  | some s => .jstr s

/-- Optional string read back from JSON. -/
def jOptStrOf : JVal → Option (Option String)
  | .jnull => some none
  | .jstr s => some (some s)
  | _ => none

/-- One record serialized to the JSON object `json.dump` writes for it. -/
def recToJson (r : ExpRecord) : JVal :=
  .jobj [
    ("status", .jstr (statusStr r.status)),
    ("start_time", .jnum (Int.ofNat r.startTime)),
    ("elapsed", .jnum r.elapsed),
    ("process_pid", jOptNat r.processPid),
    ("template", .jstr r.template),
    ("result_folder", jOptStr r.resultFolder),
    ("error", jOptStr r.error),
    ("return_code", jOptInt r.returnCode)]

/-- A record dictionary as reconstructed from a loaded JSON object: the way
the app reads each field back out of the parsed value. -/
def recOfJson : JVal → Option ExpRecord
  | .jobj [
      ("status", .jstr s),
      ("start_time", .jnum (Int.ofNat t)),
      ("elapsed", .jnum e),
      ("process_pid", pj),
      ("template", .jstr tp),
      ("result_folder", rj),
      ("error", ej),
      ("return_code", cj)] =>
    match statusOfStr s, jOptNatOf pj, jOptStrOf rj, jOptStrOf ej, jOptIntOf cj with
    | some st, some pid, some rf, some er, some rc =>
      some ⟨st, t, e, pid, tp, rf, er, rc⟩
    | _, _, _, _, _ => none
  | _ => none

/-- The in-memory experiments mapping `_experiments_state`, keyed by run
identifier (insertion-ordered, duplicate-free keys as in a Python dict). -/
abbrev StateMap := List (String × ExpRecord)

/-- The whole mapping serialized (`json.dump(state, f)`). -/
def stateToJson (m : StateMap) : JVal :=
  .jobj ((m : List (String × ExpRecord)).map (fun kv => (kv.1, recToJson kv.2)))

/-- Entries of a loaded top-level JSON object read back as records. -/
def entriesOfJson : List (String × JVal) → Option StateMap
  | [] => some ([] : List (String × ExpRecord))
  | (k, j) :: rest =>
    match recOfJson j, entriesOfJson rest with
    | some r, some m => some (((k, r) :: m : List (String × ExpRecord)) : StateMap)
    | _, _ => none

/-- A loaded top-level JSON value read back as the experiments mapping. -/
def stateOfJson : JVal → Option StateMap
  | .jobj kvs => entriesOfJson kvs
  | _ => none

/-- The on-disk state file: absent, present but unparseable, or a parsed
JSON value (text printing and parsing of well-formed JSON is the identity
on the parsed value and is left implicit). -/
inductive FileState where
  | missing
  | corrupt
  | good (j : JVal)

/-- app.py `load_experiments_state` (lines 160-169) as a function of the
file and the current in-memory mapping: when the file is absent the body is
skipped and the current global is returned; when reading or parsing fails
the global is reset to the empty mapping; otherwise the parsed content
replaces the global.  The function is total: no exception escapes. -/
def load_experiments_state (fs : FileState) (mem : StateMap) : StateMap :=
  match fs with
  | .missing => mem
  | .corrupt => ([] : List (String × ExpRecord))
  | .good j => (stateOfJson j).getD ([] : List (String × ExpRecord))

/-- Outcome of one attempt to write the state file.  `openFail` is a
failure of `open(EXPERIMENTS_STATE_FILE, 'w')` itself, leaving the file as
it was; `midFail` is a failure after the truncating open (during
`json.dump`), leaving the file truncated or partially written, hence
unparseable. -/
inductive WriteOutcome where
  | ok
  | openFail
  | midFail
deriving DecidableEq, Repr

/-- app.py `save_experiments_state` (lines 171-177): the file is opened
with mode w (truncating) and the mapping is serialized into it; any
exception is swallowed.  On success the file holds the serialized mapping;
if the open fails the previous content survives; if the write fails after
the open the file is left truncated/corrupt.  The in-memory mapping is not
an input or output of the save at all.  The function is total: no
exception escapes. -/
def save_experiments_state (w : WriteOutcome) (m : StateMap) (fs : FileState) : FileState :=
  match w with
  | .ok => .good (stateToJson m)
  | .openFail => fs
  | .midFail => .corrupt

/-- Python dict assignment `d[k] = v`: replace in place, or append. -/
def insertState : StateMap → String → ExpRecord → StateMap
  | [], k, v => ([(k, v)] : List (String × ExpRecord))
  | (k1, v1) :: t, k, v =>
    if k1 = k then (((k, v) :: t : List (String × ExpRecord)) : StateMap)
    else ((k1, v1) :: (insertState t k v : List (String × ExpRecord)) : List (String × ExpRecord))

/-- app.py `update_experiment_state` (lines 179-184): mutate the in-memory
mapping under the lock, then best-effort persist it.  `ok` tells whether
the write succeeds. -/
def update_experiment_state (w : WriteOutcome) (id : String) (data : ExpRecord)
    (mem : StateMap) (fs : FileState) : StateMap × FileState :=
  let mem1 := insertState mem id data
  (mem1, save_experiments_state w mem1 fs)

/-- A file on disk: its name and an abstract content tag. -/
structure Fyle where
  name : String
  content : Nat
deriving DecidableEq, Repr

/-- The shared results area: the files that are direct children of the
results root, and the files of each subdirectory keyed by name. -/
structure ResultsDir where
  rootFiles : List Fyle
  subdirs : List (String × List Fyle)
deriving DecidableEq, Repr

/-- Helper for `pySuffix`: scan the reversed character list of a name for
its last dot.  `acc` holds the characters already passed, in original
order.  Returns the suffix characters (dot included) or `none` when the
name has no proper suffix: no dot at all, a dot as the final character
(`acc` still empty), or a dot as the first character of the name (`rest`
empty), matching the pathlib rule that the dot index must be strictly
inside the name. -/
def revSufAux : List Char → List Char → Option (List Char)
  | _, [] => none
  | acc, c :: rest =>
    if c = '.' then
      if acc.isEmpty then none
      else if rest.isEmpty then none
      else some ('.' :: acc)
    else revSufAux (c :: acc) rest

/-- Python `Path(name).suffix`: the portion from the last dot, or the
empty string when that dot is the first or last character of the name (so
a file named exactly `.csv` has suffix `""`). -/
def pySuffix (s : String) : String :=
  match revSufAux [] s.data.reverse with
  | none => ""
  | some cs => ⟨cs⟩

/-- Does the name carry one of the two recognized result extensions by the
suffix test of the snapshot (`f.suffix in ['.csv', '.json']`, app.py line
446).  This differs from the glob match of the move passes on a file named
exactly `.csv` or `.json`, whose suffix is empty. -/
def isResultName (n : String) : Bool :=
  pySuffix n == ".csv" || pySuffix n == ".json"

/-- The pre-run snapshot `existing_files_before` (app.py 442-447): names of
root files carrying a recognized extension. -/
def existing_files_before (d : ResultsDir) : List String :=
  (d.rootFiles.filter (fun f => isResultName f.name)).map Fyle.name

/-- The per-file move condition of a pass (app.py 566-569 and 578-581):
carries the pass extension and was not present before the run. -/
def moveCond (before : List String) (ext : String) (f : Fyle) : Bool :=
  strEnds ext f.name && !(before.contains f.name)

/-- `shutil.move` into a directory: the moved file lands there, silently
replacing a same-named file if one exists. -/
def placeInto (files : List Fyle) (f : Fyle) : List Fyle :=
  files.filter (fun g => !(g.name == f.name)) ++ [f]

/-- Files of the subdirectory named `k` (empty if absent). -/
def getSubdir (d : ResultsDir) (k : String) : List Fyle :=
  (List.lookup k d.subdirs).getD []

/-- Replace the contents of the subdirectory named `k`. -/
def setSubdir (d : ResultsDir) (k : String) (v : List Fyle) : ResultsDir :=
  { d with subdirs := (k, v) :: d.subdirs.filter (fun p => !(p.1 == k)) }

/-- One relocation pass over the root for one extension: every root file
satisfying the move condition is moved into the run folder.  Returns the
directory afterwards and the files moved by the pass. -/
def movePass (before : List String) (ext folder : String) (d : ResultsDir) :
    ResultsDir × List Fyle :=
  let moved := d.rootFiles.filter (moveCond before ext)
  let stay := d.rootFiles.filter (fun f => !(moveCond before ext f))
  let dest := moved.foldl placeInto (getSubdir d folder)
  (setSubdir { d with rootFiles := stay } folder dest, moved)

/-- The result-relocation block of `run_experiment_async` (app.py 563-588):
a `*.csv` pass followed by a `*.json` pass over the direct children of the
results root; `files_moved` is the concatenation of the two pass lists.
Each individual move succeeds here (the claim scenario). -/
def relocate_results (before : List String) (folder : String) (d : ResultsDir) :
    ResultsDir × List Fyle :=
  let r1 := movePass before ".csv" folder d
  let r2 := movePass before ".json" folder r1.1
  (r2.1, r1.2 ++ r2.2)

/-- The observable effect of spawning the external engine: command, argv,
the writes to the child input stream, and whether that stream was closed. -/
structure SpawnSpec where
  command : String
  args : List String
  stdinWrites : List String
  stdinClosed : Bool
deriving DecidableEq, Repr

/-- The engine spawn performed by app.py 450-461 and run_experiment.py
164-176: `Popen(['talkingtomachines', template_path], ...)`, one write of
the mode line, then close of the input stream. -/
def spawn_engine (templatePath mode : String) : SpawnSpec :=
  { command := "talkingtomachines",
    args := [templatePath],
    stdinWrites := [mode ++ "\n"],
    stdinClosed := true }

/-- Worker program counter inside `run_experiment_async` after the initial
running-status write (app.py 464-476): the `while process.poll() is None`
check (line 510), the store read and stop-flag check (512-523), the
running-status rewrite (541-551), the post-loop finalization (554-607), and
the returned state. -/
inductive WPC where
  | loopCheck
  | readState
  | writeRunning
  | finalize
  | done
deriving DecidableEq, Repr

/-- The engine OS process as the worker polls it. -/
inductive ProcSt where
  | alive
  | exited (code : Int)
deriving DecidableEq, Repr

/-- `process.poll() if process.poll() is not None else -1` (line 555). -/
def procExitCode : ProcSt → Int
  | .alive => -1
  | .exited c => c

/-- `process.terminate()` / `process.kill()` after the stop flag is seen
(lines 515-522): the process ends; `poll` then reports the SIGTERM code. -/
def killProc : ProcSt → ProcSt
  | .alive => .exited (-15)
  | .exited c => .exited c

/-- The running-status dictionary written each poll tick (lines 541-551).
The dictionary replaces the stored record wholesale and carries no
`template`, `result_folder` or `error` key. -/
def runningWriteRec (startTime pid clock : Nat) : ExpRecord :=
  { status := .running,
    startTime := startTime,
    elapsed := (clock : Int) - (startTime : Int),
    processPid := some pid,
    template := "",
    resultFolder := none,
    error := none,
    returnCode := none }

/-- `final_status` (line 590): the worker's last-read state wins when it
says stopped, else the exit code classifies the run. -/
def finalStatusOf (es : ExpRecord) (rc : Int) : ExpStatus :=
  if es.status = .stopped then .stopped
  else if rc = 0 then .completed
  else .failed

/-- The final dictionary written after the loop (lines 595-607); carries no
`template` or `error` key. -/
def finalWriteRec (es : ExpRecord) (rc : Int) (startTime : Nat)
    (folder : String) (clock : Nat) : ExpRecord :=
  { status := finalStatusOf es rc,
    startTime := startTime,
    elapsed := (clock : Int) - (startTime : Int),
    processPid := none,
    template := "",
    resultFolder := some folder,
    error := none,
    returnCode := some rc }

/-- The dictionary written by the exception handler (lines 609-617) when
line 590 reads the loop variable of a loop that never ran: the handler
catches the unbound-local error and records status `error`; the dictionary
carries no `template` or `return_code` key. -/
def unboundErrorRec (startTime : Nat) (folder : String) (clock : Nat) : ExpRecord :=
  { status := .error,
    startTime := startTime,
    elapsed := (clock : Int) - (startTime : Int),
    processPid := none,
    template := "",
    resultFolder := some folder,
    error := some "local variable exp_state referenced before assignment",
    returnCode := none }

/-- The interleaved system for one run: the stored record for its id, the
worker-local last-read state `exp_state`, the engine process, the worker
program counter, the OS process table seen by stop requests, a clock, the
worker-local constants (start time, engine pid, run folder path), and
`locked`: whether `_experiments_lock` is held forever by a stop request
that deadlocked at the nested acquire (app.py 260/292 calling line 182).
Once `locked` holds, every store access — the worker's
`get_experiment_state` read, its running-status rewrite and its final
write, and any further stop request — blocks at the lock and has no
effect. -/
structure Sys where
  store : ExpRecord
  expState : Option ExpRecord
  proc : ProcSt
  pc : WPC
  table : List OsProc
  clock : Nat
  startTime : Nat
  enginePid : Nat
  folder : String
  locked : Bool
deriving Repr

/-- One step of the worker thread of `run_experiment_async`.  The poll
check (line 510) touches only the process, so it proceeds even when the
lock is stuck; every store access blocks (no effect, no progress) once
`locked` holds. -/
def workerStep (s : Sys) : Sys :=
  match s.pc with
  | .loopCheck =>
    match s.proc with
    | .exited _ => { s with pc := .finalize }
    | .alive => { s with pc := .readState }
  | .readState =>
    if s.locked then s
    else if s.store.status = .stopped then
      { s with expState := some s.store, proc := killProc s.proc, pc := .finalize }
    else
      { s with expState := some s.store, pc := .writeRunning }
  | .writeRunning =>
    if s.locked then s
    else { s with store := runningWriteRec s.startTime s.enginePid s.clock, pc := .loopCheck }
  | .finalize =>
    if s.locked then s
    else
      match s.expState with
      | none => { s with store := unboundErrorRec s.startTime s.folder s.clock, pc := .done }
      | some es =>
        { s with store := finalWriteRec es (procExitCode s.proc) s.startTime s.folder s.clock,
                 pc := .done }
  | .done => s

/-- Interleaved actions: a worker step, a stop request from the UI thread,
the engine process exiting on its own with a code, or time passing. -/
inductive SysAct where
  | work
  | stopReq
  | procExit (code : Int)
  | tick
deriving DecidableEq, Repr

/-- One step of the interleaved system.  A stop request on an already
stuck lock blocks at line 200 with no effect; one that completes (record
missing or not running) writes nothing; one that reaches a terminal
update first delivers its termination signals (possibly to the engine
process itself) and then deadlocks at the nested lock acquire, leaving
`locked` set forever and the store unwritten. -/
def sysStep (a : SysAct) (s : Sys) : Sys :=
  match a with
  | .tick => { s with clock := s.clock + 1 }
  | .procExit c =>
    match s.proc with
    | .alive => { s with proc := .exited c }
    | .exited _ => s
  | .stopReq =>
    if s.locked then s
    else
      match stop_experiment s.table (some s.store) with
      | .ret _ _ => s
      | .blocked killed _ =>
        { s with
          locked := true,
          proc := if killed.any (fun q => q.pid == s.enginePid) then killProc s.proc
                  else s.proc }
  | .work => workerStep s

/-- Run a list of interleaved actions. -/
def runSys (s : Sys) : List SysAct → Sys
  | [] => s
  | a :: tr => runSys (sysStep a s) tr

/-- The record written at lines 464-476 right after the spawn: the store
content when the interleaved system starts. -/
def initRec : ExpRecord :=
  { status := .running,
    startTime := 0,
    elapsed := 0,
    processPid := some 42,
    template := "experiments_templates/t.xlsx",
    resultFolder := some "experiment_results/t_20250101_000000",
    error := none,
    returnCode := none }

/-- The system right after the spawn and the initial running-status write,
for a given process table. -/
def initSys (table : List OsProc) : Sys :=
  { store := initRec,
    expState := none,
    proc := .alive,
    pc := .loopCheck,
    table := table,
    clock := 0,
    startTime := 0,
    enginePid := 42,
    folder := "experiment_results/t_20250101_000000",
    locked := false }

/-- A record in the terminal stopped state (fixture for concrete checks). -/
def stoppedRec : ExpRecord := { initRec with status := .stopped }

/-- A process table holding one live engine process that belongs to a
different run: its command line contains the engine name but not the
template path of `initRec`. -/
def cexTable : List OsProc := [⟨99, 1, ["talkingtomachines", "other.xlsx"]⟩]

/-- Fixture: the results area before a run (one pre-existing result file,
one unrelated file, the freshly created run folder). -/
def c4Base : ResultsDir := ⟨[⟨"old.csv", 0⟩, ⟨"keep.txt", 9⟩], [("run1", [])]⟩

/-- Fixture: the two result files produced by the run. -/
def c4New : List Fyle := [⟨"a.csv", 1⟩, ⟨"b.json", 2⟩]

/-- Fixture: the results area when the run ends, before relocation. -/
def c4After : ResultsDir := ⟨[⟨"old.csv", 0⟩, ⟨"keep.txt", 9⟩, ⟨"a.csv", 1⟩, ⟨"b.json", 2⟩], [("run1", [])]⟩

/-- Fixture: a results root holding one pre-existing file named exactly
.csv, whose Path.suffix is empty, next to the freshly created run folder. -/
def c4DotDir : ResultsDir := ⟨[⟨".csv", 7⟩], [("run1", [])]⟩

/-- Fixture: a run folder that already holds a file whose name collides
with a newly produced root file. -/
def c10Dir : ResultsDir := ⟨[⟨"a.csv", 2⟩], [("run1", [⟨"a.csv", 1⟩])]⟩

/-- Fixture: a results area with the run folder and another run's folder. -/
def c10WDir : ResultsDir := ⟨[], [("run1", [⟨"res.csv", 5⟩]), ("other", [⟨"x.json", 7⟩])]⟩

/-- Invariant: a terminal status can sit in the store only after the
worker's final write, since the worker is the only thread that ever
completes a store write and its loop writes only the running status. -/
def TerminalInv (s : Sys) : Prop :=
  s.store.status.isTerminal = true → s.pc = WPC.done

theorem terminal_ne_running {st : ExpStatus} (h : st.isTerminal = true) :
    st ≠ ExpStatus.running := by
  cases st <;> simp_all [ExpStatus.isTerminal]

theorem stop_experiment_of_not_running (table : List OsProc) (r : ExpRecord)
    (h : r.status ≠ ExpStatus.running) :
    stop_experiment table (some r) = StopCall.ret false (some r) := by
  simp [stop_experiment, h]

theorem stop_experiment_of_running (table : List OsProc) (r : ExpRecord)
    (h : r.status = ExpStatus.running) :
    ∃ killed, stop_experiment table (some r) = StopCall.blocked killed (some r) := by
  simp only [stop_experiment]
  rw [if_neg (fun hn => hn h)]
  by_cases hk : (stop_kill3 table r).isEmpty
  · rw [if_pos hk]; exact ⟨[], rfl⟩
  · rw [if_neg hk]; exact ⟨stop_kill3 table r, rfl⟩

/-- Claim C7: for every stored record whose status is not running (in
particular an already stopped one), `stop_experiment` returns failure
without raising and without modifying the stored record; this path
returns at app.py 205-206 before the nested lock acquire, so it does not
deadlock either. -/
theorem claim_C7 (table : List OsProc) (r : ExpRecord)
    (h : r.status ≠ ExpStatus.running) :
    stop_experiment table (some r) = StopCall.ret false (some r) :=
  stop_experiment_of_not_running table r h

/-- Witness for claim C7 at a concrete already-stopped record. -/
theorem claim_C7_witness :
    (stoppedRec.status ≠ ExpStatus.running) ∧
    stop_experiment [] (some stoppedRec) = StopCall.ret false (some stoppedRec) :=
  ⟨by decide, claim_C7 [] stoppedRec (by decide)⟩

/-- Claim C1: the code-bug evaluation.  A running record whose recorded
pid 42 matches no live OS process, against a process table with no engine
process at all, so the claim's hypothesis holds and the no-process branch
of `stop_experiment` is reached.  The claim (and spec section 4.3) says
the call returns False and the record is stored stopped with error "No
process found to stop"; the code instead calls `update_experiment_state`
at line 260 while already holding `_experiments_lock` (acquired at line
200) and deadlocks at the nested acquire of the non-reentrant lock: the
call never returns and the stored record is never written. -/
theorem claim_C1 :
    initRec.status = ExpStatus.running ∧
    initRec.processPid = some 42 ∧
    List.find? (fun q => q.pid == 42) ([] : List OsProc) = none ∧
    stop_experiment [] (some initRec) = StopCall.blocked [] (some initRec) := by
  decide

/-- Claim C6: the engine is spawned with the template path as its sole
positional argument, exactly the mode line followed by a newline is
written to its input stream, and the stream is then closed. -/
theorem claim_C6 (t m : String) :
    (spawn_engine t m).command = "talkingtomachines" ∧
    (spawn_engine t m).args = [t] ∧
    (spawn_engine t m).stdinWrites = [m ++ "\n"] ∧
    (spawn_engine t m).stdinClosed = true :=
  ⟨rfl, rfl, rfl, rfl⟩

theorem recOfJson_recToJson (r : ExpRecord) : recOfJson (recToJson r) = some r := by
  obtain ⟨st, t, e, pid, tp, rf, er, rc⟩ := r
  cases st <;> cases pid <;> cases rf <;> cases er <;> cases rc <;> rfl

theorem entriesOfJson_map (m : StateMap) :
    entriesOfJson (m.map (fun kv => (kv.1, recToJson kv.2))) = some m := by
  induction m with
  | nil => rfl
  | cons kv t ih => simp [entriesOfJson, recOfJson_recToJson, ih]

theorem stateOfJson_stateToJson (m : StateMap) : stateOfJson (stateToJson m) = some m := by
  simp [stateToJson, stateOfJson, entriesOfJson_map]

/-- Claim C8: saving a mapping and reloading it (all file operations
succeeding) yields, for every run identifier, the record last written,
status and metadata included. -/
theorem claim_C8 (m mem : StateMap) (fs : FileState)
    (hkeys : (m.map Prod.fst).Nodup) :
    load_experiments_state (save_experiments_state WriteOutcome.ok m fs) mem = m := by
  simp [save_experiments_state, load_experiments_state, stateOfJson_stateToJson]

/-- Witness for claim C8 on a concrete two-run mapping. -/
theorem claim_C8_witness :
    (([("e1", initRec), ("e2", stoppedRec)] : StateMap).map Prod.fst).Nodup ∧
    load_experiments_state
      (save_experiments_state WriteOutcome.ok [("e1", initRec), ("e2", stoppedRec)]
        FileState.missing)
      [] = [("e1", initRec), ("e2", stoppedRec)] :=
  ⟨by decide, claim_C8 [("e1", initRec), ("e2", stoppedRec)] [] FileState.missing (by decide)⟩

/-- Counterexample to claim C9 as stated: when the state file is missing
the load returns the current in-memory mapping unchanged, which need not
be empty, rather than the empty mapping the claim requires. -/
theorem claim_C9_cex :
    load_experiments_state FileState.missing [("exp1", initRec)] = [("exp1", initRec)] ∧
    ([("exp1", initRec)] : StateMap) ≠ ([] : StateMap) :=
  ⟨rfl, by decide⟩

/-- Claim C9 as amended: the load is total (never raises) and yields the
empty mapping when the file exists but is corrupt; when the file is
missing it returns the in-memory mapping unchanged (empty at process
start).  The save is total and never touches the in-memory mapping:
whatever the outcome of the write, the in-memory mapping still receives
the update and remains the authoritative state.  (A failure after the
truncating open leaves the on-disk file corrupt, a failed open leaves it
untouched; neither affects the in-memory mapping.) -/
theorem claim_C9 (mem m : StateMap) (fs : FileState) (id : String) (r : ExpRecord)
    (w : WriteOutcome) :
    load_experiments_state FileState.corrupt mem = [] ∧
    load_experiments_state FileState.missing mem = mem ∧
    (update_experiment_state w id r m fs).1 = insertState m id r :=
  ⟨rfl, rfl, rfl⟩

theorem finalStatusOf_isTerminal (es : ExpRecord) (rc : Int) :
    (finalStatusOf es rc).isTerminal = true := by
  unfold finalStatusOf
  split
  · rfl
  · split <;> rfl

theorem sysStep_terminalInv (a : SysAct) (s : Sys) (h : TerminalInv s) :
    TerminalInv (sysStep a s) := by
  obtain ⟨store, es, proc, pc, table, clock, st0, pid, folder, locked⟩ := s
  cases a with
  | tick => exact h
  | procExit c => cases proc <;> exact h
  | stopReq =>
    cases locked with
    | true => exact h
    | false =>
      by_cases hr : store.status = ExpStatus.running
      · obtain ⟨killed, heq⟩ := stop_experiment_of_running table store hr
        simp only [sysStep, heq]
        intro ht
        exact absurd hr (terminal_ne_running ht)
      · simp only [sysStep, stop_experiment_of_not_running table store hr]
        exact h
  | work =>
    cases pc with
    | loopCheck =>
      cases proc with
      | alive => intro ht; exact WPC.noConfusion (h ht)
      | exited c => intro ht; exact WPC.noConfusion (h ht)
    | readState =>
      cases locked with
      | true => exact h
      | false =>
        by_cases hst : store.status = ExpStatus.stopped
        · simp only [sysStep, workerStep, if_pos hst]
          intro ht
          exact WPC.noConfusion (h ht)
        · simp only [sysStep, workerStep, if_neg hst]
          intro ht
          exact WPC.noConfusion (h ht)
    | writeRunning =>
      cases locked with
      | true => exact h
      | false =>
        intro ht
        simp [sysStep, workerStep, runningWriteRec, ExpStatus.isTerminal] at ht
    | finalize =>
      cases locked with
      | true => exact h
      | false =>
        cases es with
        | none => intro _; rfl
        | some e => intro _; rfl
    | done => exact h

theorem runSys_terminalInv (tr : List SysAct) (s : Sys) (h : TerminalInv s) :
    TerminalInv (runSys s tr) := by
  induction tr generalizing s with
  | nil => exact h
  | cons a t ih => exact ih _ (sysStep_terminalInv a s h)

theorem sysStep_done_sticky (a : SysAct) (s : Sys) (hpc : s.pc = WPC.done)
    (hterm : s.store.status.isTerminal = true) :
    (sysStep a s).pc = WPC.done ∧ (sysStep a s).store.status.isTerminal = true := by
  obtain ⟨store, es, proc, pc, table, clock, st0, pid, folder, locked⟩ := s
  cases hpc
  cases a with
  | tick => exact ⟨rfl, hterm⟩
  | procExit c => cases proc <;> exact ⟨rfl, hterm⟩
  | work => exact ⟨rfl, hterm⟩
  | stopReq =>
    cases locked with
    | true => exact ⟨rfl, hterm⟩
    | false =>
      have hr : store.status ≠ ExpStatus.running := terminal_ne_running hterm
      constructor
      · simp only [sysStep, stop_experiment_of_not_running table store hr]
        rfl
      · simp only [sysStep, stop_experiment_of_not_running table store hr]
        exact hterm

theorem runSys_done_sticky (tr : List SysAct) (s : Sys) (hpc : s.pc = WPC.done)
    (hterm : s.store.status.isTerminal = true) :
    (runSys s tr).pc = WPC.done ∧ (runSys s tr).store.status.isTerminal = true := by
  induction tr generalizing s with
  | nil => exact ⟨hpc, hterm⟩
  | cons a t ih =>
    obtain ⟨h1, h2⟩ := sysStep_done_sticky a s hpc hterm
    exact ih _ h1 h2

theorem runSys_append (s : Sys) (t1 t2 : List SysAct) :
    runSys s (t1 ++ t2) = runSys (runSys s t1) t2 := by
  induction t1 generalizing s with
  | nil => rfl
  | cons a t ih => exact ih (sysStep a s)

/-- Claim C2: once the stored status of a run is terminal, no subsequent
write by any interleaving of the run worker and stop requests gives it a
non-terminal status.  The worker is the only thread that ever completes a
store write: its loop writes only the running status before its single
terminal final write, after which it makes no further writes; a stop
request either returns without writing (record missing or not running) or
deadlocks at the nested lock acquire (app.py 260/292) before its write
lands. -/
theorem claim_C2 (table : List OsProc) (tr tail : List SysAct)
    (h : ((runSys (initSys table) tr).store.status).isTerminal = true) :
    ((runSys (initSys table) (tr ++ tail)).store.status).isTerminal = true := by
  have hbase : TerminalInv (initSys table) := by
    intro ht
    simp [initSys, initRec, ExpStatus.isTerminal] at ht
  have hdone := runSys_terminalInv tr (initSys table) hbase h
  rw [runSys_append]
  exact (runSys_done_sticky tail _ hdone h).2

/-- Witness for claim C2: the engine exits with code 0 before the first
poll, the worker finalizes with the terminal error status, and a later
stop request and worker step leave the status terminal. -/
theorem claim_C2_witness :
    ((runSys (initSys []) [SysAct.procExit 0, SysAct.work, SysAct.work]).store.status).isTerminal = true ∧
    ((runSys (initSys []) ([SysAct.procExit 0, SysAct.work, SysAct.work] ++ [SysAct.stopReq, SysAct.work])).store.status).isTerminal = true :=
  ⟨by decide,
    claim_C2 [] [SysAct.procExit 0, SysAct.work, SysAct.work] [SysAct.stopReq, SysAct.work]
      (by decide)⟩

/-- Claim C3: the code-bug evaluation.  A stop request lands while the
worker sits at its store read and the record says running; the claim (and
spec section 4.3) expects the request to record status stopped and the
worker's final write to preserve it, but `stop_experiment` deadlocks at
the nested lock acquire (app.py 260 calling line 182) before any write,
so the status never becomes stopped at all; the worker, blocked on the
same lock inside `get_experiment_state`, never reaches its final write
either — even after the engine process exits, the record reads running
forever. -/
theorem claim_C3 :
    (runSys (initSys []) [SysAct.work, SysAct.stopReq]).locked = true ∧
    (runSys (initSys []) [SysAct.work, SysAct.stopReq]).store.status = ExpStatus.running ∧
    (runSys (initSys []) ([SysAct.work, SysAct.stopReq] ++ [SysAct.work, SysAct.procExit 0, SysAct.work, SysAct.work])).pc = WPC.readState ∧
    (runSys (initSys []) ([SysAct.work, SysAct.stopReq] ++ [SysAct.work, SysAct.procExit 0, SysAct.work, SysAct.work])).store.status = ExpStatus.running := by
  decide

/-- Claim C5: the code-bug evaluation.  The engine exits with code 0
before the worker's first poll-loop iteration and no stop request ever
occurs; the worker should record completed with return code 0, but the
finalization reads the loop-local variable of a loop that never ran, the
unbound-local error is caught, and the run is recorded with status error
and no return code. -/
theorem claim_C5 :
    (runSys (initSys []) [SysAct.procExit 0, SysAct.work, SysAct.work]).proc = ProcSt.exited 0 ∧
    (runSys (initSys []) [SysAct.procExit 0, SysAct.work, SysAct.work]).pc = WPC.done ∧
    (runSys (initSys []) [SysAct.procExit 0, SysAct.work, SysAct.work]).store.status = ExpStatus.error ∧
    (runSys (initSys []) [SysAct.procExit 0, SysAct.work, SysAct.work]).store.returnCode = none := by
  decide

theorem not_csv_and_json (s : String) (h1 : strEnds ".csv" s = true)
    (h2 : strEnds ".json" s = true) : False := by
  unfold strEnds at h1 h2
  have e1 : (".csv" : String).data.reverse = ['v', 's', 'c', '.'] := rfl
  have e2 : (".json" : String).data.reverse = ['n', 'o', 's', 'j', '.'] := rfl
  rw [e1] at h1
  rw [e2] at h2
  cases hr : s.data.reverse with
  | nil =>
    rw [hr] at h1
    simp [charsPre] at h1
  | cons c cs =>
    rw [hr] at h1 h2
    simp [charsPre, Bool.and_eq_true, beq_iff_eq] at h1 h2
    exact absurd (h2.1.trans h1.1.symm) (by decide)

theorem charsPre_eq_append : ∀ (a b : List Char), charsPre a b = true → ∃ t, b = a ++ t := by
  intro a
  induction a with
  | nil => intro b _; exact ⟨b, rfl⟩
  | cons x xs ih =>
    intro b h
    cases b with
    | nil => simp [charsPre] at h
    | cons y ys =>
      simp only [charsPre, Bool.and_eq_true, beq_iff_eq] at h
      obtain ⟨t, ht⟩ := ih ys h.2
      refine ⟨t, ?_⟩
      rw [ht, ← h.1]
      rfl

theorem pySuffix_csv (s : String) (h : strEnds ".csv" s = true) (hne : s ≠ ".csv") :
    pySuffix s = ".csv" := by
  obtain ⟨t, ht⟩ := charsPre_eq_append ((".csv" : String).data.reverse) s.data.reverse h
  have e1 : (".csv" : String).data.reverse = ['v', 's', 'c', '.'] := rfl
  rw [e1] at ht
  cases t with
  | nil =>
    exfalso
    apply hne
    have h2 : s.data = ['.', 'c', 's', 'v'] := by
      have h3 := congrArg List.reverse ht
      simpa using h3
    have h4 : s = (⟨s.data⟩ : String) := rfl
    rw [h4, h2]
  | cons c2 t2 =>
    unfold pySuffix
    rw [ht]
    simp [revSufAux]

theorem pySuffix_json (s : String) (h : strEnds ".json" s = true) (hne : s ≠ ".json") :
    pySuffix s = ".json" := by
  obtain ⟨t, ht⟩ := charsPre_eq_append ((".json" : String).data.reverse) s.data.reverse h
  have e1 : (".json" : String).data.reverse = ['n', 'o', 's', 'j', '.'] := rfl
  rw [e1] at ht
  cases t with
  | nil =>
    exfalso
    apply hne
    have h2 : s.data = ['.', 'j', 's', 'o', 'n'] := by
      have h3 := congrArg List.reverse ht
      simpa using h3
    have h4 : s = (⟨s.data⟩ : String) := rfl
    rw [h4, h2]
  | cons c2 t2 =>
    unfold pySuffix
    rw [ht]
    simp [revSufAux]

theorem contains_before_of_mem (d : ResultsDir) (f : Fyle) (hf : f ∈ d.rootFiles)
    (hext : isResultName f.name = true) :
    (existing_files_before d).contains f.name = true := by
  apply List.elem_eq_true_of_mem
  exact List.mem_map_of_mem Fyle.name (List.mem_filter.mpr ⟨hf, hext⟩)

theorem contains_before_of_fresh (d : ResultsDir) (x : String)
    (hx : x ∉ d.rootFiles.map Fyle.name) :
    (existing_files_before d).contains x = false := by
  simp only [List.contains, List.elem_eq_mem, decide_eq_false_iff_not]
  intro hmem
  apply hx
  obtain ⟨g, hg, hgx⟩ := List.mem_map.mp hmem
  exact hgx ▸ List.mem_map_of_mem Fyle.name (List.mem_filter.mp hg).1

theorem moveCond_old_csv (d : ResultsDir) (f : Fyle) (hf : f ∈ d.rootFiles)
    (hb : f.name ≠ ".csv") :
    moveCond (existing_files_before d) ".csv" f = false := by
  unfold moveCond
  cases hc : strEnds ".csv" f.name with
  | false => rfl
  | true =>
    have hres : isResultName f.name = true := by
      unfold isResultName
      rw [pySuffix_csv f.name hc hb]
      rfl
    rw [contains_before_of_mem d f hf hres]
    rfl

theorem moveCond_old_json (d : ResultsDir) (f : Fyle) (hf : f ∈ d.rootFiles)
    (hb : f.name ≠ ".json") :
    moveCond (existing_files_before d) ".json" f = false := by
  unfold moveCond
  cases hc : strEnds ".json" f.name with
  | false => rfl
  | true =>
    have hres : isResultName f.name = true := by
      unfold isResultName
      rw [pySuffix_json f.name hc hb]
      rfl
    rw [contains_before_of_mem d f hf hres]
    rfl

theorem moveCond_fresh (d : ResultsDir) (ext : String) (f : Fyle)
    (hx : f.name ∉ d.rootFiles.map Fyle.name) :
    moveCond (existing_files_before d) ext f = strEnds ext f.name := by
  unfold moveCond
  rw [contains_before_of_fresh d f.name hx]
  cases strEnds ext f.name <;> rfl

theorem mem_foldl_placeInto_of_ne (l : List Fyle) : ∀ (acc : List Fyle) (f : Fyle),
    f ∈ acc → (∀ g ∈ l, g.name ≠ f.name) → f ∈ l.foldl placeInto acc := by
  induction l with
  | nil => intro acc f hf _; exact hf
  | cons g t ih =>
    intro acc f hf hn
    apply ih (placeInto acc g) f
    · apply List.mem_append_left
      refine List.mem_filter.mpr ⟨hf, ?_⟩
      rw [Bool.not_eq_true', beq_eq_false_iff_ne]
      exact fun he => hn g (List.mem_cons_self g t) he.symm
    · exact fun g2 hg2 => hn g2 (List.mem_cons_of_mem g hg2)

theorem mem_foldl_placeInto_self (l : List Fyle) : ∀ (acc : List Fyle),
    (l.map Fyle.name).Nodup → ∀ f ∈ l, f ∈ l.foldl placeInto acc := by
  induction l with
  | nil => intro acc _ f hf; cases hf
  | cons g t ih =>
    intro acc hnd f hf
    rw [List.map_cons, List.nodup_cons] at hnd
    rcases List.mem_cons.mp hf with rfl | hft
    · apply mem_foldl_placeInto_of_ne t (placeInto acc f) f
      · exact List.mem_append_right _ (by simp)
      · intro g2 hg2 he
        exact hnd.1 (he ▸ List.mem_map_of_mem Fyle.name hg2)
    · exact ih (placeInto acc g) hnd.2 f hft

theorem getSubdir_set_same (d : ResultsDir) (k : String) (v : List Fyle) :
    getSubdir (setSubdir d k v) k = v := by
  simp [getSubdir, setSubdir]

theorem lookup_filter_ne (k k2 : String) (h : k2 ≠ k) (l : List (String × List Fyle)) :
    List.lookup k2 (l.filter (fun p => !(p.1 == k))) = List.lookup k2 l := by
  induction l with
  | nil => rfl
  | cons a t ih =>
    obtain ⟨a1, a2⟩ := a
    by_cases h1 : a1 = k
    · rw [List.filter_cons_of_neg (by simp [h1])]
      rw [ih]
      rw [List.lookup_cons]
      have hne : (k2 == a1) = false := beq_eq_false_iff_ne.mpr (fun he => h (he.trans h1))
      simp [hne]
    · rw [List.filter_cons_of_pos (by simp [h1])]
      by_cases h2 : k2 = a1
      · subst h2
        simp [List.lookup_cons]
      · simp [List.lookup_cons, beq_eq_false_iff_ne.mpr h2, ih]

theorem getSubdir_set_other (d : ResultsDir) (k k2 : String) (h : k2 ≠ k) (v : List Fyle) :
    getSubdir (setSubdir d k v) k2 = getSubdir d k2 := by
  unfold getSubdir setSubdir
  rw [List.lookup_cons]
  simp only [beq_eq_false_iff_ne.mpr h]
  rw [lookup_filter_ne k k2 h]

theorem movePass_snd (before : List String) (ext folder : String) (d : ResultsDir) :
    (movePass before ext folder d).2 = d.rootFiles.filter (moveCond before ext) := rfl

theorem movePass_fst_rootFiles (before : List String) (ext folder : String) (d : ResultsDir) :
    (movePass before ext folder d).1.rootFiles
      = d.rootFiles.filter (fun f => !(moveCond before ext f)) := rfl

theorem getSubdir_movePass_same (before : List String) (ext folder : String) (d : ResultsDir) :
    getSubdir (movePass before ext folder d).1 folder
      = (d.rootFiles.filter (moveCond before ext)).foldl placeInto (getSubdir d folder) :=
  getSubdir_set_same _ folder _

theorem getSubdir_movePass_other (before : List String) (ext folder k2 : String)
    (h : k2 ≠ folder) (d : ResultsDir) :
    getSubdir (movePass before ext folder d).1 k2 = getSubdir d k2 :=
  getSubdir_set_other _ folder k2 h _

theorem relocate_snd (before : List String) (folder : String) (d : ResultsDir) :
    (relocate_results before folder d).2
      = d.rootFiles.filter (moveCond before ".csv")
        ++ (d.rootFiles.filter (fun f => !(moveCond before ".csv" f))).filter
             (moveCond before ".json") := rfl

theorem relocate_fst_rootFiles (before : List String) (folder : String) (d : ResultsDir) :
    (relocate_results before folder d).1.rootFiles
      = (d.rootFiles.filter (fun f => !(moveCond before ".csv" f))).filter
          (fun f => !(moveCond before ".json" f)) := rfl

theorem getSubdir_relocate_same (before : List String) (folder : String) (d : ResultsDir) :
    getSubdir (relocate_results before folder d).1 folder
      = ((d.rootFiles.filter (fun f => !(moveCond before ".csv" f))).filter
           (moveCond before ".json")).foldl placeInto
          ((d.rootFiles.filter (moveCond before ".csv")).foldl placeInto (getSubdir d folder)) := by
  show getSubdir (movePass before ".json" folder (movePass before ".csv" folder d).1).1 folder = _
  rw [getSubdir_movePass_same, movePass_fst_rootFiles, getSubdir_movePass_same]

theorem getSubdir_relocate_other (before : List String) (folder k2 : String)
    (h : k2 ≠ folder) (d : ResultsDir) :
    getSubdir (relocate_results before folder d).1 k2 = getSubdir d k2 := by
  show getSubdir (movePass before ".json" folder (movePass before ".csv" folder d).1).1 k2 = _
  rw [getSubdir_movePass_other _ _ _ _ h, getSubdir_movePass_other _ _ _ _ h]

theorem json_and_not_csv (nm : String) :
    (strEnds ".json" nm && !(strEnds ".csv" nm)) = strEnds ".json" nm := by
  cases hj : strEnds ".json" nm with
  | false => simp
  | true =>
    cases hc : strEnds ".csv" nm with
    | false => simp [hc]
    | true => exact (not_csv_and_json nm hc hj).elim

/-- Claim C4 as amended: for a run started when the results root held the
files of `d0` (of which N carry a recognized extension) and finalized when
the root additionally holds M new recognized files with fresh distinct
names, with every move succeeding, and provided additionally that no
pre-existing root file is named exactly .csv or .json, relocation leaves
the root exactly as before the run, the moved list is exactly the M new
files, and each of them ends up in the run's result folder.  (Without the
bare-name proviso a pre-existing root file named exactly .csv escapes the
suffix-based snapshot yet is matched by the glob pass and moved: see the
counterexample.) -/
theorem claim_C4 (d0 d1 : ResultsDir) (newFiles : List Fyle) (folder : String)
    (hroot : d1.rootFiles = d0.rootFiles ++ newFiles)
    (hsub : d1.subdirs = d0.subdirs)
    (hext : ∀ f ∈ newFiles, (strEnds ".csv" f.name || strEnds ".json" f.name) = true)
    (hfresh0 : ∀ f ∈ newFiles, f.name ∉ existing_files_before d0)
    (hbare : ∀ g ∈ d0.rootFiles, g.name ≠ ".csv" ∧ g.name ≠ ".json")
    (hnodup : (newFiles.map Fyle.name).Nodup) :
    (relocate_results (existing_files_before d0) folder d1).1.rootFiles = d0.rootFiles ∧
    (relocate_results (existing_files_before d0) folder d1).2.Perm newFiles ∧
    ∀ f ∈ newFiles,
      f ∈ getSubdir (relocate_results (existing_files_before d0) folder d1).1 folder := by
  have hfresh : ∀ f ∈ newFiles, f.name ∉ d0.rootFiles.map Fyle.name := by
    intro f hf hmem
    obtain ⟨g, hg, hgx⟩ := List.mem_map.mp hmem
    apply hfresh0 f hf
    have hne1 : f.name ≠ ".csv" := fun he => (hbare g hg).1 (hgx.trans he)
    have hne2 : f.name ≠ ".json" := fun he => (hbare g hg).2 (hgx.trans he)
    have hor := hext f hf
    have hres : isResultName f.name = true := by
      cases hc : strEnds ".csv" f.name with
      | true =>
        unfold isResultName
        rw [pySuffix_csv f.name hc hne1]
        rfl
      | false =>
        have hj : strEnds ".json" f.name = true := by
          rw [hc] at hor
          simpa using hor
        unfold isResultName
        rw [pySuffix_json f.name hj hne2]
        rfl
    have hgres : isResultName g.name = true := by
      rw [hgx]
      exact hres
    exact hgx ▸ List.mem_map_of_mem Fyle.name (List.mem_filter.mpr ⟨hg, hgres⟩)
  have hm1 : d1.rootFiles.filter (moveCond (existing_files_before d0) ".csv")
      = newFiles.filter (fun f => strEnds ".csv" f.name) := by
    rw [hroot, List.filter_append]
    rw [List.filter_eq_nil_iff.mpr
      (fun f hf => by simp [moveCond_old_csv d0 f hf (hbare f hf).1])]
    rw [List.filter_congr (fun f hf => moveCond_fresh d0 ".csv" f (hfresh f hf))]
    rw [List.nil_append]
  have hstay1 : d1.rootFiles.filter (fun f => !(moveCond (existing_files_before d0) ".csv" f))
      = d0.rootFiles ++ newFiles.filter (fun f => !(strEnds ".csv" f.name)) := by
    rw [hroot, List.filter_append]
    congr 1
    · exact List.filter_eq_self.mpr
        (fun f hf => by simp [moveCond_old_csv d0 f hf (hbare f hf).1])
    · exact List.filter_congr (fun f hf => by rw [moveCond_fresh d0 ".csv" f (hfresh f hf)])
  have hm2 : (d0.rootFiles ++ newFiles.filter (fun f => !(strEnds ".csv" f.name))).filter
      (moveCond (existing_files_before d0) ".json")
      = newFiles.filter (fun f => strEnds ".json" f.name) := by
    rw [List.filter_append]
    rw [List.filter_eq_nil_iff.mpr
      (fun f hf => by simp [moveCond_old_json d0 f hf (hbare f hf).2])]
    rw [List.nil_append]
    rw [List.filter_congr
      (fun f hf => moveCond_fresh d0 ".json" f (hfresh f (List.mem_filter.mp hf).1))]
    rw [List.filter_filter]
    exact List.filter_congr (fun f _ => json_and_not_csv f.name)
  have hstay2 : (d0.rootFiles ++ newFiles.filter (fun f => !(strEnds ".csv" f.name))).filter
      (fun f => !(moveCond (existing_files_before d0) ".json" f)) = d0.rootFiles := by
    rw [List.filter_append]
    have hA : d0.rootFiles.filter (fun f => !(moveCond (existing_files_before d0) ".json" f))
        = d0.rootFiles :=
      List.filter_eq_self.mpr
        (fun f hf => by simp [moveCond_old_json d0 f hf (hbare f hf).2])
    have hB : (newFiles.filter (fun f => !(strEnds ".csv" f.name))).filter
        (fun f => !(moveCond (existing_files_before d0) ".json" f)) = [] := by
      apply List.filter_eq_nil_iff.mpr
      intro f hf
      obtain ⟨hfn, hnc⟩ := List.mem_filter.mp hf
      rw [moveCond_fresh d0 ".json" f (hfresh f hfn)]
      have hor := hext f hfn
      rw [Bool.not_eq_true'] at hnc
      rw [hnc] at hor
      simp at hor
      simp [hor]
    rw [hA, hB, List.append_nil]
  have hgd : getSubdir d1 folder = getSubdir d0 folder := by
    unfold getSubdir
    rw [hsub]
  refine ⟨?_, ?_, ?_⟩
  · rw [relocate_fst_rootFiles, hstay1, hstay2]
  · rw [relocate_snd, hm1, hstay1, hm2]
    have hjn : ∀ f ∈ newFiles, strEnds ".json" f.name = !(strEnds ".csv" f.name) := by
      intro f hf
      have hor := hext f hf
      cases hc : strEnds ".csv" f.name with
      | true =>
        cases hj : strEnds ".json" f.name with
        | false => rfl
        | true => exact (not_csv_and_json f.name hc hj).elim
      | false =>
        rw [hc] at hor
        simp at hor
        simp [hor]
    rw [List.filter_congr hjn]
    exact List.filter_append_perm _ _
  · intro f hf
    rw [getSubdir_relocate_same, hm1, hstay1, hm2, hgd]
    have hnodCsv : ((newFiles.filter (fun f => strEnds ".csv" f.name)).map Fyle.name).Nodup :=
      List.Nodup.sublist (List.Sublist.map _ (List.filter_sublist _)) hnodup
    have hnodJson : ((newFiles.filter (fun f => strEnds ".json" f.name)).map Fyle.name).Nodup :=
      List.Nodup.sublist (List.Sublist.map _ (List.filter_sublist _)) hnodup
    cases hc : strEnds ".csv" f.name with
    | true =>
      apply mem_foldl_placeInto_of_ne
      · exact mem_foldl_placeInto_self _ _ hnodCsv f (List.mem_filter.mpr ⟨hf, hc⟩)
      · intro g hg he
        obtain ⟨hgn, hgj⟩ := List.mem_filter.mp hg
        have hgf : g = f := List.inj_on_of_nodup_map hnodup hgn hf he
        exact not_csv_and_json f.name hc (hgf ▸ hgj)
    | false =>
      have hj : strEnds ".json" f.name = true := by
        have hor := hext f hf
        rw [hc] at hor
        simpa using hor
      exact mem_foldl_placeInto_self _ _ hnodJson f (List.mem_filter.mpr ⟨hf, hj⟩)

/-- Counterexample to claim C4 as stated: the results root holds one
pre-existing file named exactly .csv and the engine adds no files at all
(M = 0, and N = 0 since the suffix of that name is empty, so the pre-run
snapshot records nothing).  The glob pass nevertheless matches the bare
name: relocation moves the pre-existing file into the run folder, so the
root does not keep its pre-existing files and the moved list is not the
list of new files. -/
theorem claim_C4_cex :
    existing_files_before c4DotDir = [] ∧
    (relocate_results (existing_files_before c4DotDir) "run1" c4DotDir).1.rootFiles = [] ∧
    (relocate_results (existing_files_before c4DotDir) "run1" c4DotDir).2 = [⟨".csv", 7⟩] := by
  decide

/-- Claim C10 as amended: relocation never touches a subdirectory other
than the run's own result folder, and a file already inside the run's own
result folder survives in place provided no moved file carries its name.
A same-named moved file overwrites it (see the counterexample). -/
theorem claim_C10 (d : ResultsDir) (before : List String) (folder other : String)
    (hne : other ≠ folder) :
    getSubdir (relocate_results before folder d).1 other = getSubdir d other ∧
    ∀ f ∈ getSubdir d folder,
      (∀ g ∈ (relocate_results before folder d).2, g.name ≠ f.name) →
      f ∈ getSubdir (relocate_results before folder d).1 folder := by
  refine ⟨getSubdir_relocate_other before folder other hne d, ?_⟩
  intro f hf hg
  rw [getSubdir_relocate_same]
  rw [relocate_snd] at hg
  apply mem_foldl_placeInto_of_ne
  · apply mem_foldl_placeInto_of_ne
    · exact hf
    · exact fun g hgm => hg g (List.mem_append_left _ hgm)
  · exact fun g hgm => hg g (List.mem_append_right _ hgm)

/-- Witness for claim C4 on a concrete run: one pre-existing result file,
one unrelated file, and two freshly produced files. -/
theorem claim_C4_witness :
    (c4After.rootFiles = c4Base.rootFiles ++ c4New ∧ c4After.subdirs = c4Base.subdirs) ∧
    ((relocate_results (existing_files_before c4Base) "run1" c4After).1.rootFiles
        = c4Base.rootFiles ∧
     (relocate_results (existing_files_before c4Base) "run1" c4After).2.Perm c4New ∧
     ∀ f ∈ c4New,
       f ∈ getSubdir (relocate_results (existing_files_before c4Base) "run1" c4After).1 "run1") :=
  ⟨⟨by decide, by decide⟩,
    claim_C4 c4Base c4After c4New "run1" (by decide) (by decide) (by decide) (by decide)
      (by decide) (by decide)⟩

/-- Witness for the amended claim C10 on a concrete results area holding
the run's folder and another run's folder. -/
theorem claim_C10_witness :
    ("other" ≠ "run1") ∧
    (getSubdir (relocate_results [] "run1" c10WDir).1 "other" = getSubdir c10WDir "other" ∧
     ∀ f ∈ getSubdir c10WDir "run1",
       (∀ g ∈ (relocate_results [] "run1" c10WDir).2, g.name ≠ f.name) →
       f ∈ getSubdir (relocate_results [] "run1" c10WDir).1 "run1") :=
  ⟨by decide, claim_C10 c10WDir [] "run1" "other" (by decide)⟩

/-- Counterexample to claim C10 as stated: the run's own result folder
already holds a file named a.csv; the engine writes a new root file with
the same name; relocation moves it and the move silently replaces the file
that was inside the subdirectory, so that file is not left in place. -/
theorem claim_C10_cex :
    (⟨"a.csv", 1⟩ : Fyle) ∈ getSubdir c10Dir "run1" ∧
    (⟨"a.csv", 1⟩ : Fyle) ∉ getSubdir (relocate_results [] "run1" c10Dir).1 "run1" := by
  decide
